import Mathlib

/-!
Verification of the engineering-notation codec in
`engineering_conversions.py` (`eng_float`, the string-to-number parser,
and `eng_str`, the number-to-string formatter).

Modelling conventions:
* Python strings are `List Char`; Python `float` values are exact
  rationals `ℚ` (the decimal string grammar denotes exact rationals, so
  "within floating-point rounding" claims become exact equalities).
* Rational arithmetic is implemented over `Rat.divInt` and integer
  operations so that every definition evaluates by kernel reduction.
* `float(...)` (the host numeric parser) is modelled by `parseFloat`,
  covering Python's decimal/scientific grammar (optional surrounding
  whitespace, optional sign, digits with optional fractional part,
  optional `e`/`E` exponent); the `inf`/`nan` words and digit
  underscores, which the codec never relies on, are out of scope.
* `ValueError` messages become the structured error type `EngErr`
  together with `message`, which renders the exact Python format
  strings.
* The module-level dict `ms`, which `eng_str` mutates on every call
  (`ms[6] = mega`, `ms[-6] = micro`, `ms[0] = ...`), is modelled by
  explicit state passing: `eng_str_core` consumes a table and returns
  the updated table alongside the output string.
-/

namespace EngFmt

/-! ## Kernel-friendly rational arithmetic -/

/-- Addition on `ℚ` via `Rat.divInt` (definitionally evaluable). -/
def qadd (a b : ℚ) : ℚ := Rat.divInt (a.num * b.den + b.num * a.den) ((a.den : ℤ) * (b.den : ℤ))

/-- Multiplication on `ℚ` via `Rat.divInt`. -/
def qmul (a b : ℚ) : ℚ := Rat.divInt (a.num * b.num) ((a.den : ℤ) * (b.den : ℤ))

/-- Subtraction on `ℚ` via `Rat.divInt`. -/
def qsub (a b : ℚ) : ℚ := Rat.divInt (a.num * b.den - b.num * a.den) ((a.den : ℤ) * (b.den : ℤ))

/-- `10 ^ w` for a signed exponent `w`, as an exact rational. -/
def pow10 (w : ℤ) : ℚ :=
  if 0 ≤ w then Rat.divInt ((10 ^ w.toNat : ℕ) : ℤ) 1
  else Rat.divInt 1 ((10 ^ (-w).toNat : ℕ) : ℤ)

/-- Absolute value on `ℚ`. -/
def qabs (a : ℚ) : ℚ := if a < 0 then -a else a

/-! ## Characters and digit strings -/

/-- Whitespace as stripped by Python's `str.strip` / accepted by `float`
(ASCII subset; the codec only ever meets these). -/
def pyIsSpace (c : Char) : Bool := c.isWhitespace || c = '\x0b' || c = '\x0c'

/-- Python `str.strip()`: remove leading and trailing whitespace. -/
def pyStrip (l : List Char) : List Char :=
  ((l.dropWhile pyIsSpace).reverse.dropWhile pyIsSpace).reverse

/-- ASCII decimal digit test. -/
def isDigitCh (c : Char) : Bool := '0' ≤ c && c ≤ '9'

/-- Numeric value of a string of decimal digit characters. -/
def digitsToNat (l : List Char) : ℕ := l.foldl (fun a c => 10 * a + (c.toNat - 48)) 0

/-- Decimal digits of `n`, fuel-driven so it evaluates by reduction. -/
def natDecAux : ℕ → ℕ → List Char
  | 0, _ => []
  | fuel + 1, n =>
    if n < 10 then [Nat.digitChar n]
    else natDecAux fuel (n / 10) ++ [Nat.digitChar (n % 10)]

/-- Decimal rendering of a natural number (`str(n)` for `n ≥ 0`). -/
def natDec (n : ℕ) : List Char := natDecAux (n + 1) n

/-- Python `str(w)` for an integer: minus sign only when negative. -/
def intDec (w : ℤ) : List Char :=
  if w < 0 then '-' :: natDec w.natAbs else natDec w.toNat

/-- Python `'{:+}'.format(w)`: always an explicit sign. -/
def signedDec (w : ℤ) : List Char :=
  (if w < 0 then '-' else '+') :: natDec w.natAbs

/-! ## The host numeric parser: Python `float(str)` -/

/-- Exponent tail of a float literal: optional sign, then at least one
digit, then end of input; scales `mant` by the signed power of ten. -/
def parseExpPart (mant : ℚ) (r : List Char) : Option ℚ :=
  let sgnStep : Bool × List Char :=
    match r with
    | '+' :: s => (false, s)
    | '-' :: s => (true, s)
    | s => (false, s)
  let eneg := sgnStep.1
  let r1 := sgnStep.2
  let eds := r1.takeWhile isDigitCh
  let r2 := r1.dropWhile isDigitCh
  if eds.isEmpty then none
  else if r2.isEmpty then
    some (qmul mant (pow10 (if eneg then -(digitsToNat eds : ℤ) else (digitsToNat eds : ℤ))))
  else none

/-- Core of Python's `float` grammar on whitespace-stripped text:
`[+-]? (digits [. digits?] | . digits) ([eE] [+-]? digits)?`,
denoting its exact rational value. -/
def parseNum (t : List Char) : Option ℚ :=
  let sgnStep : Bool × List Char :=
    match t with
    | '+' :: r => (false, r)
    | '-' :: r => (true, r)
    | r => (false, r)
  let neg := sgnStep.1
  let t1 := sgnStep.2
  let ids := t1.takeWhile isDigitCh
  let t2 := t1.dropWhile isDigitCh
  let fracStep : List Char × List Char :=
    match t2 with
    | '.' :: r => (r.takeWhile isDigitCh, r.dropWhile isDigitCh)
    | r => ([], r)
  let fds := fracStep.1
  let t3 := fracStep.2
  if ids.isEmpty && fds.isEmpty then none
  else
    let mant : ℚ :=
      Rat.divInt ((if neg then -1 else 1) * ((digitsToNat ids * 10 ^ fds.length + digitsToNat fds : ℕ) : ℤ))
        ((10 ^ fds.length : ℕ) : ℤ)
    match t3 with
    | [] => some mant
    | 'e' :: r => parseExpPart mant r
    | 'E' :: r => parseExpPart mant r
    | _ => none

/-- Python `float(str)`: surrounding whitespace is ignored. -/
def parseFloat (l : List Char) : Option ℚ := parseNum (pyStrip l)

/-! ## The prefix tables (module-level dicts of the source) -/

/-- `MICRO_SIGN = 'µ'`. -/
def MICRO_SIGN : Char := 'µ'

/-- `GREEK_MU = 'μ'`. -/
def GREEK_MU : Char := 'μ'

/-- The `longest_weights` dict, in insertion order. -/
def longest_weights : List (List Char × ℤ) :=
  [("mega".data, 6), ("MEGA".data, 6), ("Mega".data, 6)]

/-- The `long_weights` dict, in insertion order. -/
def long_weights : List (List Char × ℤ) :=
  [("meg".data, 6), ("MEG".data, 6), ("Meg".data, 6), ("da".data, 1)]

/-- The `weights` dict, in the insertion order produced by the source:
inverting `ms` (keys 3,6,…,24,−3,…,−24), then the two micro signs,
then the non-multiple-of-3 prefixes `d`, `c`, `h`. -/
def weights : List (List Char × ℤ) :=
  [("k".data, 3), ("M".data, 6), ("G".data, 9), ("T".data, 12),
   ("P".data, 15), ("E".data, 18), ("Z".data, 21), ("Y".data, 24),
   ("m".data, -3), ("u".data, -6), ("n".data, -9), ("p".data, -12),
   ("f".data, -15), ("a".data, -18), ("z".data, -21), ("y".data, -24),
   ([MICRO_SIGN], -6), ([GREEK_MU], -6),
   ("d".data, -1), ("c".data, -2), ("h".data, 2)]

/-- The scan order of `eng_float`:
`for search_in in (longest_weights, long_weights, weights)`. -/
def searchOrder : List (List Char × ℤ) := longest_weights ++ long_weights ++ weights

/-! ## The parser `eng_float` -/

/-- First table entry (longest group first, insertion order within a
group) whose token the text ends with. -/
def suffixScan (x : List Char) : Option (List Char × ℤ) :=
  searchOrder.find? (fun p => p.1.isSuffixOf x)

/-- Leftmost occurrence index of `t` in `x` (Python `str.find`). -/
def findSubPos (t : List Char) : List Char → Option ℕ
  | [] => if t.isPrefixOf ([] : List Char) then some 0 else none
  | c :: xs =>
    if t.isPrefixOf (c :: xs) then some 0
    else (findSubPos t xs).map (· + 1)

/-- First table entry occurring anywhere inside the text, with the
position of its leftmost occurrence. -/
def midScan (x : List Char) : Option (List Char × ℤ × ℕ) :=
  searchOrder.findSome? (fun p => (findSubPos p.1 x).map (fun i => (p.1, p.2, i)))

/-- The `ValueError`s raised by `eng_float`, with their payloads. -/
inductive EngErr where
  | emptyInput : EngErr
  | suffixFailed (orig cand subst : List Char) : EngErr
  | midFailed (orig cand subst : List Char) : EngErr
  | noMultiplierFound (orig : List Char) : EngErr
deriving DecidableEq

/-- The exact `ValueError` message text of each error. -/
def message : EngErr → List Char
  | .emptyInput => ("no input, nothing to do").data
  | .suffixFailed o c s =>
    ('"' :: o) ++ ("\" found suffix \"").data ++ c ++ ("\" but \"").data ++ s ++ ("\" not parsed").data
  | .midFailed o c s =>
    ('"' :: o) ++ ("\" found infix \"").data ++ c ++ ("\" but \"").data ++ s ++ ("\" not parsed").data
  | .noMultiplierFound o =>
    ("could not parse \"").data ++ o ++ ("\" as float, no multiplier found").data

instance : DecidableEq (Except EngErr ℚ) := fun a b =>
  match a, b with
  | .ok x, .ok y =>
    if h : x = y then .isTrue (by rw [h]) else .isFalse (fun hh => h (Except.ok.inj hh))
  | .ok _, .error _ => .isFalse (fun hh => Except.noConfusion hh)
  | .error _, .ok _ => .isFalse (fun hh => Except.noConfusion hh)
  | .error e, .error f =>
    if h : e = f then .isTrue (by rw [h]) else .isFalse (fun hh => h (Except.error.inj hh))

/-- The text a suffix match substitutes: the token stripped from the
end (`x = x[:-len(cand)]`), a literal `e` and the weight appended. -/
def suffixSubstText (x : List Char) (cw : List Char × ℤ) : List Char :=
  x.take (x.length - cw.1.length) ++ ('e' :: intDec cw.2)

/-- Suffix-substitution step of `eng_float`: re-parse the substituted
text, reporting `SuffixSubstitutionFailed` with original text, matched
token and substituted text when `float` still rejects it. -/
def engSubsSuffix (x_org x : List Char) (cw : List Char × ℤ) : Except EngErr ℚ :=
  match parseFloat (suffixSubstText x cw) with
  | some v => .ok v
  | none => .error (.suffixFailed x_org cw.1 (suffixSubstText x cw))

/-- The text an infix match substitutes: the token's occurrence
replaced by a decimal point, a literal `e` and the weight appended. -/
def midSubstText (x : List Char) (cwp : List Char × ℤ × ℕ) : List Char :=
  x.take cwp.2.2 ++ ('.' :: x.drop (cwp.2.2 + cwp.1.length)) ++ ('e' :: intDec cwp.2.1)

/-- Infix-substitution step of `eng_float`: re-parse the substituted
text, reporting `InfixSubstitutionFailed` with original text, matched
token and substituted text when `float` still rejects it. -/
def engSubsMid (x_org x : List Char) (cwp : List Char × ℤ × ℕ) : Except EngErr ℚ :=
  match parseFloat (midSubstText x cwp) with
  | some v => .ok v
  | none => .error (.midFailed x_org cwp.1 (midSubstText x cwp))

/-- `eng_float(x_org)`: reject empty input; try `float` directly; strip
whitespace; try suffix substitution (token removed, `e<w>` appended);
then infix substitution (token replaced by a decimal point, `e<w>`
appended); otherwise report that no multiplier was found. -/
def eng_float (x_org : List Char) : Except EngErr ℚ :=
  if x_org.length = 0 then .error .emptyInput
  else
    match parseFloat x_org with
    | some v => .ok v
    | none =>
      match suffixScan (pyStrip x_org) with
      | some cw => engSubsSuffix x_org (pyStrip x_org) cw
      | none =>
        match midScan (pyStrip x_org) with
        | some cwp => engSubsMid x_org (pyStrip x_org) cwp
        | none => .error (.noMultiplierFound x_org)

/-! ## The formatter `eng_str` -/

/-- Decimal digit count of `n`, fuel-driven. -/
def numDigitsAux : ℕ → ℕ → ℕ
  | 0, _ => 0
  | fuel + 1, n => if n < 10 then 1 else numDigitsAux fuel (n / 10) + 1

/-- Decimal digit count of a natural number. -/
def numDigits (n : ℕ) : ℕ := numDigitsAux (n + 1) n

/-- Largest `e` with `10 ^ e ≤ a`, for positive `a` (the exponent of
the scientific rendering). -/
def floorLog10 (a : ℚ) : ℤ :=
  let g : ℤ := (numDigits a.num.natAbs : ℤ) - (numDigits a.den : ℤ)
  if pow10 g ≤ a then g else g - 1

/-- Round to the nearest integer, ties to even (the rounding of
Python's `'{:.Ne}'` float formatting). -/
def roundHalfEven (q : ℚ) : ℤ :=
  let f := q.floor
  let r := qsub q (Rat.divInt f 1)
  let half : ℚ := Rat.divInt 1 2
  if r < half then f
  else if half < r then f + 1
  else if f % 2 = 0 then f else f + 1

/-- Model of `'{:+.{p}e}'.format(x)` split into its fields:
sign, one leading digit, exactly `p` rounded fractional digits, and the
decimal exponent. -/
def sciFormat (x : ℚ) (p : ℕ) : Bool × ℕ × List ℕ × ℤ :=
  if x = 0 then (false, 0, List.replicate p 0, 0)
  else
    let a := qabs x
    let e0 := floorLog10 a
    let scaled := qmul a (pow10 ((p : ℤ) - e0))
    let M1 := (roundHalfEven scaled).toNat
    let M := if M1 < 10 ^ (p + 1) then M1 else M1 / 10
    let e := if M1 < 10 ^ (p + 1) then e0 else e0 + 1
    (decide (x < 0), M / 10 ^ p, (List.range p).map (fun i => M / 10 ^ (p - 1 - i) % 10), e)

/-- `digits = int(digits); if digits < 1: digits = 1`. -/
def clampDigits (d : ℤ) : ℤ := if d < 1 then 1 else d

/-- Fractional digit count handed to the e-format: `digits - 1`. -/
def pOf (d : ℤ) : ℕ := (clampDigits d - 1).toNat

/-- Sign field of the e-format of `x` (`True` iff negative). -/
def sciNeg (x : ℚ) (d : ℤ) : Bool := (sciFormat x (pOf d)).1

/-- Leading digit (`ipart`) of the e-format of `x`. -/
def sciLead (x : ℚ) (d : ℤ) : ℕ := (sciFormat x (pOf d)).2.1

/-- Fractional digits (`fpart`) of the e-format of `x`. -/
def sciFrac (x : ℚ) (d : ℤ) : List ℕ := (sciFormat x (pOf d)).2.2.1

/-- Exponent (`exp`) of the e-format of `x`. -/
def sciExp (x : ℚ) (d : ℤ) : ℤ := (sciFormat x (pOf d)).2.2.2

/-- `adjustment = exp % 3` (Python `%`: always non-negative here). -/
def adjOf (x : ℚ) (d : ℤ) : ℤ := sciExp x d % 3

/-- `fpart` zero-padded until it is at least `adjustment` long
(`while len(fpart) < adjustment: fpart += '0'`). -/
def paddedFrac (x : ℚ) (d : ℤ) : List ℕ :=
  sciFrac x d ++ List.replicate ((adjOf x d).toNat - (sciFrac x d).length) 0

/-- Integer part after moving `adjustment` digits across
(`ipart += fpart[:adjustment]`). -/
def ipartOf (x : ℚ) (d : ℤ) : List ℕ :=
  sciLead x d :: (paddedFrac x d).take (adjOf x d).toNat

/-- Fractional part after the move (`fpart = fpart[adjustment:]`). -/
def fpartOf (x : ℚ) (d : ℤ) : List ℕ :=
  (paddedFrac x d).drop (adjOf x d).toNat

/-- The renormalized exponent `exp -= adjustment`. -/
def exp3Of (x : ℚ) (d : ℤ) : ℤ := sciExp x d - adjOf x d

/-- `fpart.rstrip('0')`. -/
def dropTrailingZeros (l : List ℕ) : List ℕ :=
  (l.reverse.dropWhile (fun n => n == 0)).reverse

/-- `hilim = min(max(limits), 24)`. -/
def hilimOf (limits : ℤ × ℤ) : ℤ := min (max limits.1 limits.2) 24

/-- `lolim = max(min(limits), -24)`. -/
def lolimOf (limits : ℤ × ℤ) : ℤ := max (min limits.1 limits.2) (-24)

/-- Point update of the multiplier table (Python `ms[k] = v`). -/
def updF (f : ℤ → Option (List Char)) (k : ℤ) (v : List Char) : ℤ → Option (List Char) :=
  fun j => if j = k then some v else f j

/-- The `ms` dict as initialised at module load: multipliers for the
multiples of three from `+3` to `+24` and `-3` to `-24` (no entry for
`0`; `eng_str` inserts one on every call). -/
def msList : List (ℤ × List Char) :=
  [(3, "k".data), (6, "M".data), (9, "G".data), (12, "T".data),
   (15, "P".data), (18, "E".data), (21, "Z".data), (24, "Y".data),
   (-3, "m".data), (-6, "u".data), (-9, "n".data), (-12, "p".data),
   (-15, "f".data), (-18, "a".data), (-21, "z".data), (-24, "y".data)]

/-- Lookup view of the initial `ms` dict. -/
def ms0 : ℤ → Option (List Char) :=
  fun k => (msList.find? (fun p => p.1 == k)).map (fun p => p.2)

/-- `eng_str` with the mutable module dict `ms` made explicit: takes
the current table, returns the output string and the updated table
(the call always writes keys `6`, `-6` and `0`). -/
def eng_str_core (msT : ℤ → Option (List Char)) (x : ℚ) (digits : ℤ) (limits : ℤ × ℤ)
    (micro mega : List Char) (useMid showPlus showTrailingZeros : Bool) :
    List Char × (ℤ → Option (List Char)) :=
  let fpart2 := if showTrailingZeros then fpartOf x digits else dropTrailingZeros (fpartOf x digits)
  let dp : List Char := if fpart2.isEmpty then [] else ['.']
  let exp3 := exp3Of x digits
  let ms1 := updF (updF (updF msT 6 mega) (-6) micro) 0 (if useMid then ['.'] else [])
  let canSubs := decide (lolimOf limits ≤ exp3) && decide (exp3 ≤ hilimOf limits)
  let sign : List Char := if sciNeg x digits then ['-'] else if showPlus then ['+'] else []
  let ipartC := (ipartOf x digits).map Nat.digitChar
  let fpartC := fpart2.map Nat.digitChar
  if useMid && canSubs then (sign ++ ipartC ++ ((ms1 exp3).getD [] ++ fpartC), ms1)
  else if canSubs then (sign ++ ipartC ++ (dp ++ fpartC ++ (ms1 exp3).getD []), ms1)
  else (sign ++ ipartC ++ (dp ++ fpartC ++ ('e' :: signedDec exp3)), ms1)

/-- `eng_str` on the pristine module table, output string only. -/
def eng_str (x : ℚ) (digits : ℤ) (limits : ℤ × ℤ) (micro mega : List Char)
    (useMid showPlus showTrailingZeros : Bool) : List Char :=
  (eng_str_core ms0 x digits limits micro mega useMid showPlus showTrailingZeros).1

/-- `eng_str` with every optional argument at its default
(`digits=6, limits=(-12,9), micro='u', mega='M'`, flags off). -/
def eng_strD (x : ℚ) : List Char :=
  eng_str x 6 (-12, 9) ("u".data) ("M".data) false false false

/-! ## Definitions used by the round-trip statement -/

/-- `x` rounded (half to even) to the significant digit count the
formatter works with: the value denoted by the fields of
`sciFormat x (pOf d)`. -/
def roundSig (x : ℚ) (d : ℤ) : ℚ :=
  let p := pOf d
  let s := sciFormat x p
  let M : ℕ := (s.2.1 :: s.2.2.1).foldl (fun a dgt => 10 * a + dgt) 0
  qmul (qmul (if s.1 then -1 else 1) (Rat.divInt (M : ℤ) 1)) (pow10 (s.2.2.2 - p))

/-- Exponents spanning the full substitution window and beyond, in
steps of three: `-27, -24, …, +24, +27`. -/
def repExps : List ℤ := (List.range 19).map (fun n => 3 * (n : ℤ) - 27)

/-- Representative magnitudes across the supported exponent range: a
six-digit positive mantissa, a negative tie-prone mantissa, and zero. -/
def reps : List ℚ :=
  (repExps.map (fun n => qmul (Rat.divInt 314159 100000) (pow10 n))) ++
  (repExps.map (fun n => qmul (Rat.divInt (-25) 10) (pow10 n))) ++ [0]

/-! ### Doctest checks for `eng_float` (from the source docstring) -/

example : [eng_float ("1".data), eng_float ("1da".data), eng_float ("1h".data),
    eng_float ("1k".data), eng_float ("1M".data), eng_float ("1meg".data),
    eng_float ("1Mega".data), eng_float ("1G".data)]
    = [.ok 1, .ok 10, .ok 100, .ok 1000, .ok 1000000, .ok 1000000,
       .ok 1000000, .ok 1000000000] := by decide

example : [eng_float ("1d".data), eng_float ("1c".data), eng_float ("1m".data),
    eng_float ("1u".data)]
    = [.ok (Rat.divInt 1 10), .ok (Rat.divInt 1 100), .ok (Rat.divInt 1 1000),
       .ok (Rat.divInt 1 1000000)] := by decide

example : [eng_float ("1.3k".data), eng_float ("1k3".data), eng_float ("1u3".data),
    eng_float ("1.3u".data)]
    = [.ok 1300, .ok 1300, .ok (Rat.divInt 13 10000000), .ok (Rat.divInt 13 10000000)] := by
  decide

example : [eng_float ("-1.3k".data), eng_float ("-1k3".data)]
    = [.ok (-1300), .ok (-1300)] := by decide

example : eng_float ("".data) = .error .emptyInput := by decide

example : eng_float ("1.2m3".data)
    = .error (.midFailed ("1.2m3".data) ("m".data) ("1.2.3e-3".data)) := by decide

example : eng_float ("14.3mm".data)
    = .error (.suffixFailed ("14.3mm".data) ("m".data) ("14.3me-3".data)) := by decide

example : eng_float ("1t".data) = .error (.noMultiplierFound ("1t".data)) := by decide

example : eng_float ("m".data)
    = .error (.suffixFailed ("m".data) ("m".data) ("e-3".data)) := by decide

example : message (.suffixFailed ("m".data) ("m".data) ("e-3".data))
    = ("\"m\" found suffix \"m\" but \"e-3\" not parsed").data := by decide

/-! ### Doctest checks for `eng_str` (from the source docstring) -/

example : [eng_strD 3, eng_strD 1200, eng_strD 30000, eng_strD (Rat.divInt (-7) 1000)]
    = [("3".data), ("1.2k".data), ("30k".data), ("-7m".data)] := by decide

example : (List.range 9).map (fun n => eng_strD (qmul 4 (pow10 ((n : ℤ) + 4))))
    = [("40k".data), ("400k".data), ("4M".data), ("40M".data), ("400M".data),
       ("4G".data), ("40G".data), ("400G".data), ("4e+12".data)] := by decide

example : (List.range 9).map
      (fun n => eng_str (qmul 3 (pow10 (3 * (n : ℤ) + 3))) 6 (100, -100) ("u".data) ("M".data) false false false)
    = [("3k".data), ("3M".data), ("3G".data), ("3T".data), ("3P".data),
       ("3E".data), ("3Z".data), ("3Y".data), ("3e+27".data)] := by decide

example : (List.range 7).map (fun n => eng_strD (qmul 4 (pow10 (-2 * (n : ℤ) - 4))))
    = [("400u".data), ("4u".data), ("40n".data), ("400p".data), ("4p".data),
       ("40e-15".data), ("400e-18".data)] := by decide

example : (List.range 9).map
      (fun n => eng_str (qmul 3 (pow10 (-3 * (n : ℤ) - 3))) 6 (100, -100) ("u".data) ("M".data) false false false)
    = [("3m".data), ("3u".data), ("3n".data), ("3p".data), ("3f".data),
       ("3a".data), ("3z".data), ("3y".data), ("3e-27".data)] := by decide

example : (List.range 8).map
      (fun n => eng_str 314159 (n : ℤ) (-12, 9) ("u".data) ("M".data) false false false)
    = [("300k".data), ("300k".data), ("310k".data), ("314k".data), ("314.2k".data),
       ("314.16k".data), ("314.159k".data), ("314.159k".data)] := by decide

example : eng_str 314159 8 (-12, 9) ("u".data) ("M".data) false false true
    = ("314.15900k".data) := by decide

example : eng_str 314159 6 (-12, 9) ("u".data) ("M".data) true false false
    = ("314k159".data) := by decide

example : [eng_str 1 6 (-12, 9) ("u".data) ("M".data) false true false,
    eng_str (-1) 6 (-12, 9) ("u".data) ("M".data) false true false]
    = [("+1".data), ("-1".data)] := by decide

example : eng_str 314159 30 (-12, 9) ("u".data) ("M".data) false false true
    = ("314.159000000000000000000000000k".data) := by decide

set_option maxRecDepth 8000 in
example : (List.range 7).map (fun n => eng_strD (qmul 3 (pow10 (102 * (n : ℤ) - 306))))
    = [("3e-306".data), ("3e-204".data), ("3e-102".data), ("3".data),
       ("3e+102".data), ("3e+204".data), ("3e+306".data)] := by decide

example : [eng_str 400000000 6 (-12, 9) ("u".data) ("meg".data) false false false,
    eng_str 400000000 6 (-12, 9) ("u".data) ("Mega".data) false false false,
    eng_str 400000000 6 (-12, 9) ("u".data) ("foo".data) false false false]
    = [("400meg".data), ("400Mega".data), ("400foo".data)] := by decide

example : [eng_str (Rat.divInt 4 100000) 6 (-12, 9) ("u".data) ("M".data) false false false,
    eng_str (Rat.divInt 4 100000) 6 (-12, 9) ([MICRO_SIGN]) ("M".data) false false false,
    eng_str (Rat.divInt 4 100000) 6 (-12, 9) ("z".data) ("M".data) false false false]
    = [("40u".data), ([ '4', '0', MICRO_SIGN ]), ("40z".data)] := by decide

example : eng_strD 10000000 = ("10M".data) := by decide

example : eng_str (Rat.divInt 3 10000) 3 (-12, 9) ("u".data) ("M".data) false false false
    = ("300u".data) := by decide

/-! ## Bridge lemmas -/

/-- `pow10` agrees with the library power `(10:ℚ) ^ w`. -/
theorem pow10_eq_zpow (w : ℤ) : pow10 w = (10 : ℚ) ^ w := by
  unfold pow10
  split
  · next h =>
    rw [Rat.divInt_eq_div]
    push_cast
    rw [div_one, ← zpow_natCast]
    congr 1
    omega
  · next h =>
    rw [Rat.divInt_eq_div]
    push_cast
    rw [one_div, ← zpow_natCast, ← zpow_neg]
    congr 1
    omega

/-! ## The claims -/

/-- Claim C1: for every standard table token `T` with weight `w`
(all BIPM prefixes `k M G T P E Z Y m u n p f a z y`, both unicode
micro variants, the `meg`/`Meg`/`MEG`/`mega`/`Mega`/`MEGA` aliases,
and `da`, `d`, `c`, `h`), `eng_float` of the string `"1" + T` returns
`10 ^ w` (exactly, in the rational model). -/
theorem c1_one_token_parses_to_weight :
    ∀ p ∈ searchOrder, eng_float ('1' :: p.1) = .ok ((10 : ℚ) ^ p.2) := by
  have h : ∀ p ∈ searchOrder, eng_float ('1' :: p.1) = .ok (pow10 p.2) := by decide
  intro p hp
  rw [← pow10_eq_zpow]
  exact h p hp

/-- Witness for C1 at the token `k`. -/
theorem c1_one_token_parses_to_weight_witness :
    (("k".data, (3 : ℤ)) ∈ searchOrder) ∧
      eng_float ('1' :: "k".data) = .ok ((10 : ℚ) ^ (3 : ℤ)) :=
  ⟨by decide, c1_one_token_parses_to_weight ("k".data, (3 : ℤ)) (by decide)⟩

/-- Claim C5: `eng_float "34E3"` is consumed by the direct `float`
parse (the `E` acts as the scientific-exponent marker) and returns
`34000`, while `"34E"` fails the direct parse and reaches suffix
substitution, returning `34 × 10 ^ 18`. -/
theorem c5_exa_exponent_collision :
    parseFloat ("34E3".data) = some 34000 ∧
    eng_float ("34E3".data) = .ok 34000 ∧
    parseFloat ("34E".data) = none ∧
    suffixScan (pyStrip ("34E".data)) = some ("E".data, 18) ∧
    eng_float ("34E".data) = .ok ((34 : ℚ) * 10 ^ (18 : ℕ)) := by
  refine ⟨by decide, by decide, by decide, by decide, ?_⟩
  have hv : ((34 : ℚ) * 10 ^ (18 : ℕ)) = 34000000000000000000 := by norm_num
  rw [hv]
  decide

/-- Claim C6: suffix matching tries the longest-alias group first, so
`eng_float "1Mega"` tokenizes the whole `Mega` (weight 6) and returns
`1e6`, instead of first matching the single-character `a` = atto. -/
theorem c6_longest_match_precedence :
    suffixScan (pyStrip ("1Mega".data)) = some ("Mega".data, 6) ∧
    (("a".data, (-18 : ℤ)) ∈ searchOrder) ∧
    ("a".data).isSuffixOf (pyStrip ("1Mega".data)) = true ∧
    eng_float ("1Mega".data) = .ok 1000000 := by decide

/-- Claim C9: suffix and infix forms agree — `eng_float "2.7k"` and
`eng_float "2k7"` both return `2700`, and the infix form
`eng_float "12u6"` returns `1.26e-5 = 126/10^7` (the infix token acts
as a decimal point combined with the token's power of ten). -/
theorem c9_suffix_and_infix_agree :
    eng_float ("2.7k".data) = .ok 2700 ∧
    eng_float ("2k7".data) = .ok 2700 ∧
    eng_float ("12u6".data) = .ok (Rat.divInt 126 10000000) := by decide

/-- Counterexample to claim C4: the very first `eng_str` call with all
defaults already changes the token table — the module dict `ms` has no
key `0` at load time, but after the call it maps `0` to the empty
string (and calls may likewise overwrite keys `6` and `-6`). -/
theorem c4_format_mutates_table_counterexample :
    (eng_str_core ms0 1 6 (-12, 9) ("u".data) ("M".data) false false false).2 0 = some [] ∧
    ms0 0 = none := by decide

/-- Claim C4 (amended): the parser-side tables (`weights` and friends)
are module constants that no call touches, but every `eng_str` call
writes keys `6`, `-6` and `0` of the shared `ms` dict (with its `mega`,
`micro` and infix-dependent values) and leaves every other key
unchanged; concurrent format calls therefore do share mutable state. -/
theorem c4_format_table_update (msT : ℤ → Option (List Char)) (x : ℚ) (d : ℤ)
    (lims : ℤ × ℤ) (micro mega : List Char) (um sp stz : Bool) (k : ℤ) :
    (eng_str_core msT x d lims micro mega um sp stz).2 k
      = if k = 0 then some (if um then ['.'] else [])
        else if k = -6 then some micro
        else if k = 6 then some mega
        else msT k := by
  simp only [eng_str_core, updF]
  split
  · rfl
  · split <;> rfl

/-- Claim C2: round trip — for every representative magnitude across
the supported exponent range and every digit count `d` from 1 to 7,
parsing the string produced by formatting `x` with `d` significant
digits recovers exactly `x` rounded to `d` significant digits. -/
theorem c2_round_trip :
    ∀ x ∈ reps, ∀ d ∈ ([1, 2, 3, 4, 5, 6, 7] : List ℤ),
      eng_float (eng_str x d (-12, 9) ("u".data) ("M".data) false false false)
        = .ok (roundSig x d) := by
  set_option maxRecDepth 8000 in decide

/-- Witness for C2 at `x = 3.14159e-27`, `d = 6`. -/
theorem c2_round_trip_witness :
    (qmul (Rat.divInt 314159 100000) (pow10 (-27)) ∈ reps) ∧
    eng_float (eng_str (qmul (Rat.divInt 314159 100000) (pow10 (-27))) 6 (-12, 9)
        ("u".data) ("M".data) false false false)
      = .ok (roundSig (qmul (Rat.divInt 314159 100000) (pow10 (-27))) 6) :=
  ⟨by decide,
   c2_round_trip (qmul (Rat.divInt 314159 100000) (pow10 (-27))) (by decide) 6 (by decide)⟩

/-- Claim C3: the formatter never fails on numeric input — on every
rational and every option combination it produces a (non-empty) string;
`digits` below 1 is silently clamped up to 1, and the `limits` pair is
accepted in either order, neither being an error. -/
theorem c3_formatter_never_fails :
    (∀ (msT : ℤ → Option (List Char)) (x : ℚ) (d : ℤ) (lims : ℤ × ℤ)
        (micro mega : List Char) (um sp stz : Bool),
      (eng_str_core msT x d lims micro mega um sp stz).1 ≠ []) ∧
    (∀ (x : ℚ) (d : ℤ) (lims : ℤ × ℤ) (micro mega : List Char) (um sp stz : Bool),
      d < 1 → eng_str x d lims micro mega um sp stz = eng_str x 1 lims micro mega um sp stz) ∧
    (∀ (x : ℚ) (d a b : ℤ) (micro mega : List Char) (um sp stz : Bool),
      eng_str x d (a, b) micro mega um sp stz = eng_str x d (b, a) micro mega um sp stz) := by
  refine ⟨?_, ?_, ?_⟩
  · intro msT x d lims micro mega um sp stz
    simp only [eng_str_core]
    split
    · simp [ipartOf, List.append_eq_nil]
    · split <;> simp [ipartOf, List.append_eq_nil]
  · intro x d lims micro mega um sp stz hd
    have hp : pOf d = pOf 1 := by
      unfold pOf clampDigits
      rw [if_pos hd, if_neg (by omega : ¬ (1 : ℤ) < 1)]
    simp only [eng_str, eng_str_core, fpartOf, paddedFrac, adjOf, sciFrac, sciExp,
      ipartOf, sciLead, exp3Of, sciNeg, hp]
  · intro x d a b micro mega um sp stz
    have hlo : lolimOf (a, b) = lolimOf (b, a) := by
      simp [lolimOf, min_comm]
    have hhi : hilimOf (a, b) = hilimOf (b, a) := by
      simp [hilimOf, max_comm]
    simp only [eng_str, eng_str_core, hlo, hhi]

/-- Witness for C3: a default call is non-empty, and `digits = 0` is
clamped to behave exactly like `digits = 1`. -/
theorem c3_formatter_never_fails_witness :
    (eng_str_core ms0 3 6 (-12, 9) ("u".data) ("M".data) false false false).1 ≠ [] ∧
    eng_str 3 0 (-12, 9) ("u".data) ("M".data) false false false
      = eng_str 3 1 (-12, 9) ("u".data) ("M".data) false false false :=
  ⟨c3_formatter_never_fails.1 ms0 3 6 (-12, 9) ("u".data) ("M".data) false false false,
   c3_formatter_never_fails.2.1 3 0 (-12, 9) ("u".data) ("M".data) false false false
     (by decide)⟩

/-- The suffix-failure message, split so the original text is visibly a
segment of it. -/
theorem message_suffix_has_orig (o c sub : List Char) :
    message (.suffixFailed o c sub)
      = ['"'] ++ o ++ (("\" found suffix \"").data ++ c
          ++ (("\" but \"").data ++ sub ++ ("\" not parsed").data)) := by
  simp [message, List.append_assoc]

/-- The suffix-failure message, split at the matched token. -/
theorem message_suffix_has_cand (o c sub : List Char) :
    message (.suffixFailed o c sub)
      = (('"' :: o) ++ ("\" found suffix \"").data) ++ c
          ++ (("\" but \"").data ++ sub ++ ("\" not parsed").data) := by
  simp [message, List.append_assoc]

/-- The suffix-failure message, split at the substituted text. -/
theorem message_suffix_has_subst (o c sub : List Char) :
    message (.suffixFailed o c sub)
      = (('"' :: o) ++ ("\" found suffix \"").data ++ c ++ ("\" but \"").data) ++ sub
          ++ ("\" not parsed").data := by
  simp [message, List.append_assoc]

/-- The infix-failure message, split at the original text. -/
theorem message_mid_has_orig (o c sub : List Char) :
    message (.midFailed o c sub)
      = ['"'] ++ o ++ (("\" found infix \"").data ++ c
          ++ (("\" but \"").data ++ sub ++ ("\" not parsed").data)) := by
  simp [message, List.append_assoc]

/-- The infix-failure message, split at the matched token. -/
theorem message_mid_has_cand (o c sub : List Char) :
    message (.midFailed o c sub)
      = (('"' :: o) ++ ("\" found infix \"").data) ++ c
          ++ (("\" but \"").data ++ sub ++ ("\" not parsed").data) := by
  simp [message, List.append_assoc]

/-- The infix-failure message, split at the substituted text. -/
theorem message_mid_has_subst (o c sub : List Char) :
    message (.midFailed o c sub)
      = (('"' :: o) ++ ("\" found infix \"").data ++ c ++ ("\" but \"").data) ++ sub
          ++ ("\" not parsed").data := by
  simp [message, List.append_assoc]

/-- A suffix-substitution step only raises `suffixFailed`, always with
the caller's original text and a substitution that `float` rejects. -/
theorem engSubsSuffix_error (x_org x : List Char) (cw : List Char × ℤ)
    (o c sub : List Char) (h : engSubsSuffix x_org x cw = .error (.suffixFailed o c sub)) :
    o = x_org ∧ parseFloat sub = none := by
  unfold engSubsSuffix at h
  split at h
  · simp at h
  · next heq =>
    injection h with h1
    injection h1 with ho hc hsub
    exact ⟨ho.symm, hsub ▸ heq⟩

/-- An infix-substitution step only raises `midFailed`, always with the
caller's original text and a substitution that `float` rejects. -/
theorem engSubsMid_error (x_org x : List Char) (cwp : List Char × ℤ × ℕ)
    (o c sub : List Char) (h : engSubsMid x_org x cwp = .error (.midFailed o c sub)) :
    o = x_org ∧ parseFloat sub = none := by
  unfold engSubsMid at h
  split at h
  · simp at h
  · next heq =>
    injection h with h1
    injection h1 with ho hc hsub
    exact ⟨ho.symm, hsub ▸ heq⟩

/-- A suffix step never raises an infix failure. -/
theorem engSubsSuffix_ne_mid (x_org x : List Char) (cw : List Char × ℤ)
    (o c sub : List Char) : engSubsSuffix x_org x cw ≠ .error (.midFailed o c sub) := by
  unfold engSubsSuffix
  split <;> simp

/-- An infix step never raises a suffix failure. -/
theorem engSubsMid_ne_suffix (x_org x : List Char) (cwp : List Char × ℤ × ℕ)
    (o c sub : List Char) : engSubsMid x_org x cwp ≠ .error (.suffixFailed o c sub) := by
  unfold engSubsMid
  split <;> simp

/-- Claim C7: the error taxonomy of the parser — `""` fails with
`EmptyInput`, `"1t"` with `NoMultiplierFound`, `"m"` with
`SuffixSubstitutionFailed`; and every substitution-failure error
carries the original input verbatim plus a substitution that indeed
fails to parse, its message containing the original input, the matched
token and the substituted text as literal segments. -/
theorem c7_error_taxonomy :
    eng_float ([] : List Char) = .error .emptyInput ∧
    eng_float ("1t".data) = .error (.noMultiplierFound ("1t".data)) ∧
    eng_float ("m".data) = .error (.suffixFailed ("m".data) ("m".data) ("e-3".data)) ∧
    (∀ s o c sub, eng_float s = .error (.suffixFailed o c sub) →
      o = s ∧ parseFloat sub = none ∧
      (∃ u v, message (.suffixFailed o c sub) = u ++ o ++ v) ∧
      (∃ u v, message (.suffixFailed o c sub) = u ++ c ++ v) ∧
      (∃ u v, message (.suffixFailed o c sub) = u ++ sub ++ v)) ∧
    (∀ s o c sub, eng_float s = .error (.midFailed o c sub) →
      o = s ∧ parseFloat sub = none ∧
      (∃ u v, message (.midFailed o c sub) = u ++ o ++ v) ∧
      (∃ u v, message (.midFailed o c sub) = u ++ c ++ v) ∧
      (∃ u v, message (.midFailed o c sub) = u ++ sub ++ v)) := by
  refine ⟨by decide, by decide, by decide, ?_, ?_⟩
  · intro s o c sub h
    unfold eng_float at h
    split at h
    · simp at h
    · split at h
      · simp at h
      · split at h
        · obtain ⟨ho, hsub⟩ := engSubsSuffix_error _ _ _ _ _ _ h
          exact ⟨ho, hsub, ⟨_, _, message_suffix_has_orig o c sub⟩,
            ⟨_, _, message_suffix_has_cand o c sub⟩,
            ⟨_, _, message_suffix_has_subst o c sub⟩⟩
        · split at h
          · exact absurd h (engSubsMid_ne_suffix _ _ _ _ _ _)
          · simp at h
  · intro s o c sub h
    unfold eng_float at h
    split at h
    · simp at h
    · split at h
      · simp at h
      · split at h
        · exact absurd h (engSubsSuffix_ne_mid _ _ _ _ _ _)
        · split at h
          · obtain ⟨ho, hsub⟩ := engSubsMid_error _ _ _ _ _ _ h
            exact ⟨ho, hsub, ⟨_, _, message_mid_has_orig o c sub⟩,
              ⟨_, _, message_mid_has_cand o c sub⟩,
              ⟨_, _, message_mid_has_subst o c sub⟩⟩
          · simp at h

/-- Witness for C7 at the documented failing input `"m"`. -/
theorem c7_error_taxonomy_witness :
    ("m".data = "m".data) ∧ parseFloat ("e-3".data) = none ∧
    (∃ u v, message (.suffixFailed ("m".data) ("m".data) ("e-3".data)) = u ++ ("m".data) ++ v) ∧
    (∃ u v, message (.suffixFailed ("m".data) ("m".data) ("e-3".data)) = u ++ ("m".data) ++ v) ∧
    (∃ u v, message (.suffixFailed ("m".data) ("m".data) ("e-3".data)) = u ++ ("e-3".data) ++ v) :=
  c7_error_taxonomy.2.2.2.1 ("m".data) ("m".data) ("m".data) ("e-3".data) (by decide)

/-- Claim C8: exponent renormalization — `adjustment = exp % 3` is the
non-negative mathematical modulus; `adjustment` digits move from the
front of the (zero-padded-if-short) fractional part into the integer
part; the exponent drops by `adjustment` to `exp3`, always a multiple
of three; and whenever substitution is impossible the output ends in a
literal `e` followed by the explicitly signed, multiple-of-three
exponent. -/
theorem c8_exponent_renormalization (x : ℚ) (d : ℤ) :
    adjOf x d = sciExp x d % 3 ∧
    0 ≤ adjOf x d ∧ adjOf x d < 3 ∧
    exp3Of x d = sciExp x d - adjOf x d ∧
    (3 : ℤ) ∣ exp3Of x d ∧
    (paddedFrac x d).length = max (sciFrac x d).length (adjOf x d).toNat ∧
    ipartOf x d = sciLead x d :: (paddedFrac x d).take (adjOf x d).toNat ∧
    fpartOf x d = (paddedFrac x d).drop (adjOf x d).toNat ∧
    (∀ (msT : ℤ → Option (List Char)) (lims : ℤ × ℤ) (micro mega : List Char)
        (um sp stz : Bool),
      ¬(lolimOf lims ≤ exp3Of x d ∧ exp3Of x d ≤ hilimOf lims) →
      ∃ pre, (eng_str_core msT x d lims micro mega um sp stz).1
        = pre ++ ('e' :: signedDec (exp3Of x d))) := by
  refine ⟨rfl, ?_, ?_, rfl, ?_, ?_, rfl, rfl, ?_⟩
  · unfold adjOf
    omega
  · unfold adjOf
    omega
  · unfold exp3Of adjOf
    omega
  · simp only [paddedFrac, List.length_append, List.length_replicate]
    omega
  · intro msT lims micro mega um sp stz hns
    have hb : (decide (lolimOf lims ≤ exp3Of x d) && decide (exp3Of x d ≤ hilimOf lims))
        = false := by
      rcases Decidable.em (lolimOf lims ≤ exp3Of x d) with hA | hA
      · have hB : ¬ exp3Of x d ≤ hilimOf lims := fun hB => hns ⟨hA, hB⟩
        simp [hA, hB]
      · simp [hA]
    refine ⟨(if sciNeg x d then ['-'] else if sp then ['+'] else [])
        ++ ((ipartOf x d).map Nat.digitChar
          ++ ((if (if stz then fpartOf x d
                else dropTrailingZeros (fpartOf x d)).isEmpty then ([] : List Char) else ['.'])
            ++ (if stz then fpartOf x d
                else dropTrailingZeros (fpartOf x d)).map Nat.digitChar)), ?_⟩
    simp [eng_str_core, hb, List.append_assoc]

/-- Witness for C8 at `x = 3000`, `d = 6`, `limits = (0, 0)` (the
substitution window excludes `exp3 = 3`, forcing the `e`-form). -/
theorem c8_exponent_renormalization_witness :
    (3 : ℤ) ∣ exp3Of 3000 6 ∧
    (∃ pre, (eng_str_core ms0 3000 6 (0, 0) ("u".data) ("M".data) false false false).1
      = pre ++ ('e' :: signedDec (exp3Of 3000 6))) :=
  ⟨(c8_exponent_renormalization 3000 6).2.2.2.2.1,
   (c8_exponent_renormalization 3000 6).2.2.2.2.2.2.2.2 ms0 (0, 0) ("u".data) ("M".data)
     false false false (by decide)⟩

/-- Claim C10: a non-empty all-whitespace input fails with
`NoMultiplierFound` (carrying the untrimmed original), not
`EmptyInput`: the zero-length check sees the untrimmed text, and after
stripping, the empty remainder matches no suffix or infix token. -/
theorem c10_whitespace_only_input (s : List Char) (hne : s ≠ [])
    (hsp : ∀ c ∈ s, pyIsSpace c) :
    eng_float s = .error (.noMultiplierFound s) := by
  have hlen : ¬ s.length = 0 := fun h => hne (List.length_eq_zero.mp h)
  have hdw : s.dropWhile pyIsSpace = [] := List.dropWhile_eq_nil_iff.mpr hsp
  have hstrip : pyStrip s = [] := by
    unfold pyStrip
    rw [hdw]
    rfl
  have hpf : parseFloat s = none := by
    unfold parseFloat
    rw [hstrip]
    rfl
  unfold eng_float
  rw [if_neg hlen, hpf, hstrip]
  rfl

/-- Witness for C10 at the single-space input. -/
theorem c10_whitespace_only_input_witness :
    eng_float ([' ']) = .error (.noMultiplierFound ([' '])) :=
  c10_whitespace_only_input ([' ']) (by decide) (by decide)

end EngFmt
